import Mathlib

/-!
Shallow embedding of the audit-and-signing reconciliation engine of
`release-controller` (`src/cmd/release-controller/audit.go`).

External collaborators (release loading, the signature store, the signer,
the job lister, job creation, the local verification subprocess, the pod
termination-message lookup) are modelled as oracle inputs gathered in an
environment record; the reconciler itself is transcribed as a pure
function that returns its Go result (`error` or `nil`) together with the
ordered list of collaborator invocations (effects) it performed.
-/

set_option autoImplicit false

namespace ReleaseAudit

/-- `AuditFailure` (audit.go:261-264): sticky failure reason and message. -/
structure AuditFailure where
  reason : String
  message : String
  deriving DecidableEq, Repr

/-- `AuditRecord` (audit.go:248-259). Time is modelled as `Nat` nanoseconds
(`observedAt` is the `At` field). -/
structure AuditRecord where
  observedAt : Nat
  name : String
  id : String
  location : String
  release : String
  imageStreamNamespace : String
  imageStreamName : String
  failure : Option AuditFailure
  deriving DecidableEq, Repr

/-- The fields of a `*Release` that `syncAuditTag`, `ensureAuditVerifyJob`
and `AuditTracker.Sync` read: `Config.Name`, `Config.As`,
`Config.OverrideCLIImage`, `Config.PullSecretName`, `Source`/`Target`
namespace and name. -/
structure ReleaseView where
  configName : String
  configAs : String
  overrideCLIImage : String
  pullSecretName : String
  sourceNamespace : String
  sourceName : String
  targetNamespace : String
  targetName : String
  deriving DecidableEq, Repr

/-- One job returned by the label-selector listing in
`countAuditVerifyJobs` (audit.go:147-160): only its
`Status.CompletionTime` matters. -/
structure JobItem where
  completionTime : Option Nat
  deriving DecidableEq, Repr

/-- The status view of the job returned by `ensureAuditVerifyJob`, as
consumed through `jobIsComplete` (audit.go:104). -/
structure JobView where
  complete : Bool
  success : Bool
  deriving DecidableEq, Repr

/-- The job object built by the factory inside `ensureAuditVerifyJob`
(audit.go:174-201): name, CLI image, pull secret, container name and
command target, the purpose label and the annotations. -/
structure VerifyJobSpec where
  name : String
  cliImage : String
  pullSecretName : String
  containerName : String
  verifyLocation : String
  labelJobPurpose : String
  annotationSource : String
  annotationTarget : String
  annotationReleaseTag : String
  annotationJobPurpose : String
  deriving DecidableEq, Repr

/-- One collaborator invocation performed by `syncAuditTag`, in program
order. -/
inductive Effect where
  | loadRelease (ns nm : String)
  | hasSignature (dgst : String)
  | localVerify (location : String)
  | countJobs
  | ensureJob (spec : VerifyJobSpec)
  | requeueAfter (tag : String) (delayNanos : Nat)
  | setFailure (name reason message : String)
  | sign (dgst location : String)
  | putSignature (dgst : String)
  deriving DecidableEq, Repr

/-- `10 * time.Second` in nanoseconds (audit.go:95,107). -/
def tenSecondsNanos : Nat := 10000000000

/-- `12 * time.Hour` in nanoseconds (audit.go:358). -/
def twelveHoursNanos : Nat := 43200000000000

/-- Modelled from the spec: `releaseConfigModeStable` is declared outside
`src/`; the spec calls it the "stable-channel" publication mode. -/
def releaseConfigModeStable : String := "Stable"

/-- `strings.SplitN(id, ":", 2)` (audit.go:165): `none` when `id` has no
colon (one part), otherwise the part before the first colon and
everything after it. -/
def splitFirstColon (s : String) : Option (String × String) :=
  match s.data.dropWhile (fun c => c != ':') with
  | [] => none
  | _ :: rest => some (⟨s.data.takeWhile (fun c => c != ':')⟩, ⟨rest⟩)

/-- `strings.Replace(name, ":", "-", -1)` (audit.go:169). -/
def colonToDash (s : String) : String :=
  ⟨s.data.map (fun c => if c == ':' then '-' else c)⟩

/-- `if len(name) > 63 { name = name[:63] }` (audit.go:170-172). -/
def truncateName (s : String) : String :=
  if s.length > 63 then ⟨s.data.take 63⟩ else s

/-- The job-name derivation in `ensureAuditVerifyJob` (audit.go:163-172):
start from `record.ID`; when it splits in two at a colon, use
`"verify-" ++` the part after the first colon; replace every remaining
colon with a dash; truncate to 63. -/
def auditVerifyJobName (id : String) : String :=
  truncateName (colonToDash (match splitFirstColon id with
    | some p => "verify-" ++ p.2
    | none => id))

/-- The job factory inside `ensureAuditVerifyJob` (audit.go:174-201):
`cliImage` is `release.Config.OverrideCLIImage` (audit.go:175). -/
def makeAuditVerifyJob (release : ReleaseView) (record : AuditRecord) : VerifyJobSpec :=
  { name := auditVerifyJobName record.id
    cliImage := release.overrideCLIImage
    pullSecretName := release.pullSecretName
    containerName := "verify"
    verifyLocation := record.location
    labelJobPurpose := "audit"
    annotationSource := release.sourceNamespace ++ "/" ++ release.sourceName
    annotationTarget := release.targetNamespace ++ "/" ++ release.targetName
    annotationReleaseTag := record.name
    annotationJobPurpose := "audit" }

/-- `countAuditVerifyJobs` (audit.go:147-160): `(0, false)` when the
lister fails, else the number of listed audit jobs whose
`CompletionTime` is nil, paired with `true`. The input is the result of
the label-selector listing (`none` = listing error). -/
def countAuditVerifyJobs (listing : Option (List JobItem)) : Nat × Bool :=
  match listing with
  | none => (0, false)
  | some jobs => ((jobs.filter (fun j => j.completionTime.isNone)).length, true)

/-- Modelled from the spec: `jobIsComplete` is defined outside `src/`; it
reads the job's terminal status and returns `(success, complete)`. The
job view carries both bits directly. -/
def jobIsComplete (job : JobView) : Bool × Bool := (job.success, job.complete)

/-- Oracle results of every collaborator `syncAuditTag` may consult, for
one reconciliation. -/
structure Env where
  record? : Option AuditRecord
  loadErr : Option String
  loadedRelease : Option ReleaseView
  storeHasSignature : String → Bool
  cliImageForAudit : String
  localVerifyFails : Bool
  localVerifyOutput : String
  jobListing : Option (List JobItem)
  ensureJobErr : Option String
  ensureJobRet : Option JobView
  termMessage : String
  signerConfigured : Bool
  signErr : Option String
  putSignatureErr : Option String

/-- The signing tail of `syncAuditTag` (audit.go:121-142), reached after
successful verification: skip when no signer is configured; else `Sign`,
propagate its error, then `PutSignature`, propagate its error. -/
def auditSignStep (c : Env) (record : AuditRecord) (effs : List Effect) :
    Except String Unit × List Effect :=
  if !c.signerConfigured then
    (Except.ok (), effs)
  else
    match c.signErr with
    | some e => (Except.error ("unable to sign release: " ++ e),
        effs ++ [Effect.sign record.id record.location])
    | none =>
      match c.putSignatureErr with
      | some e => (Except.error ("unable to upload release signature: " ++ e),
          effs ++ [Effect.sign record.id record.location, Effect.putSignature record.id])
      | none =>
          (Except.ok (),
            effs ++ [Effect.sign record.id record.location, Effect.putSignature record.id])

/-- The `image == "local"` branch of `syncAuditTag` (audit.go:83-91):
run the verification subprocess; non-zero exit ⇒ `SetFailure` with the
trimmed combined output and return nil; zero exit falls through to the
signing tail. -/
def auditLocalStep (c : Env) (record : AuditRecord) (effs : List Effect) :
    Except String Unit × List Effect :=
  if c.localVerifyFails then
    (Except.ok (),
      effs ++ [Effect.localVerify record.location,
        Effect.setFailure record.name "VerificationFailed"
          ("Unable to verify release:\n" ++ c.localVerifyOutput.trim)])
  else
    auditSignStep c record (effs ++ [Effect.localVerify record.location])

/-- The cluster-job branch of `syncAuditTag` (audit.go:92-119): the
`!ok || count > 2` throttle requeues after 10s; then the job is ensured
(errors and a nil job are reconciliation errors); an incomplete job
requeues after 10s; a complete unsuccessful job records a sticky failure
with the retrieved termination message (or a generic one); a successful
job falls through to the signing tail. -/
def auditClusterStep (c : Env) (releaseName : String) (record : AuditRecord)
    (release : ReleaseView) (effs : List Effect) : Except String Unit × List Effect :=
  if !(countAuditVerifyJobs c.jobListing).2 || (countAuditVerifyJobs c.jobListing).1 > 2 then
    (Except.ok (),
      effs ++ [Effect.countJobs, Effect.requeueAfter releaseName tenSecondsNanos])
  else
    match c.ensureJobErr, c.ensureJobRet with
    | some e, _ =>
        (Except.error ("unable to verify release before signing: " ++ e),
          effs ++ [Effect.countJobs, Effect.ensureJob (makeAuditVerifyJob release record)])
    | none, none =>
        (Except.error "unable to verify release before signing: <nil>",
          effs ++ [Effect.countJobs, Effect.ensureJob (makeAuditVerifyJob release record)])
    | none, some job =>
      if !(jobIsComplete job).2 then
        (Except.ok (),
          effs ++ [Effect.countJobs, Effect.ensureJob (makeAuditVerifyJob release record),
            Effect.requeueAfter releaseName tenSecondsNanos])
      else if !(jobIsComplete job).1 then
        (Except.ok (),
          effs ++ [Effect.countJobs, Effect.ensureJob (makeAuditVerifyJob release record),
            Effect.setFailure record.name "VerificationFailed"
              (if c.termMessage.length > 0 then
                "Unable to verify release:\n\n" ++ c.termMessage
               else "Unable to verify release for unknown reason")])
      else
        auditSignStep c record
          (effs ++ [Effect.countJobs, Effect.ensureJob (makeAuditVerifyJob release record)])

/-- The dispatch on the resolved CLI image (audit.go:78-119): an empty
image skips verification entirely (logged, nil); the literal `"local"`
selects the subprocess path; anything else selects the cluster-job
path. -/
def auditImageDispatch (c : Env) (releaseName : String) (record : AuditRecord)
    (release : ReleaseView) (image : String) (effs : List Effect) :
    Except String Unit × List Effect :=
  if image.length == 0 then
    (Except.ok (), effs)
  else if image == "local" then
    auditLocalStep c record effs
  else
    auditClusterStep c releaseName record release effs

/-- The CLI-image selection of `syncAuditTag` (audit.go:74-77): the
controller's pinned audit image when non-empty, else the release's
`OverrideCLIImage`. -/
def auditImage (c : Env) (release : ReleaseView) : String :=
  if c.cliImageForAudit.length == 0 then release.overrideCLIImage
  else c.cliImageForAudit

/-- `syncAuditTag` after a successful release load (audit.go:68-142):
the `HasSignature` short-circuit, then CLI-image selection and
dispatch. -/
def auditAfterLoad (c : Env) (releaseName : String) (record : AuditRecord)
    (release : ReleaseView) : Except String Unit × List Effect :=
  if c.storeHasSignature record.id then
    (Except.ok (),
      [Effect.loadRelease record.imageStreamNamespace record.imageStreamName,
       Effect.hasSignature record.id])
  else
    auditImageDispatch c releaseName record release (auditImage c release)
      [Effect.loadRelease record.imageStreamNamespace record.imageStreamName,
       Effect.hasSignature record.id]

/-- `syncAuditTag` (audit.go:45-143): missing record ⇒ no-op; sticky
failure ⇒ no-op; empty digest ⇒ immediate `SetFailure` and nil; then the
release load (its error is returned, a nil release returns nil) and the
post-load stages. -/
def syncAuditTag (c : Env) (releaseName : String) : Except String Unit × List Effect :=
  match c.record? with
  | none => (Except.ok (), [])
  | some record =>
    if record.failure.isSome then
      (Except.ok (), [])
    else if record.id.length == 0 then
      (Except.ok (), [Effect.setFailure record.name "VerificationFailed"
        ("Release " ++ record.name ++ " has no digest and cannot be verified")])
    else
      match c.loadErr, c.loadedRelease with
      | some e, _ =>
          (Except.error e,
            [Effect.loadRelease record.imageStreamNamespace record.imageStreamName])
      | none, none =>
          (Except.ok (),
            [Effect.loadRelease record.imageStreamNamespace record.imageStreamName])
      | none, some release => auditAfterLoad c releaseName record release

/-- One tag of `release.Target.Spec.Tags` as `AuditTracker.Sync` reads it
(audit.go:316-332): presence of the source annotation, the name, the
phase annotation, and the id / public pull spec resolved for this tag by
`findImageIDForTag` / `findPublicImagePullSpec` (both defined outside
`src/`; their results are carried on the tag view). -/
structure TagView where
  name : String
  hasSourceAnnotation : Bool
  phase : String
  resolvedID : String
  resolvedLocation : String
  deriving DecidableEq, Repr

/-- The filter at the top of the tag loop (audit.go:317-326): skip tags
without the source annotation, with an empty name, or with a phase other
than Accepted / Ready / Rejected. -/
def tagQualifies (t : TagView) : Bool :=
  t.hasSourceAnnotation && t.name.length != 0 &&
    (t.phase == "Accepted" || t.phase == "Ready" || t.phase == "Rejected")

/-- The existing-record branch of the tag loop (audit.go:349-365):
`changed` is set on location drift or id drift; when more than 12 hours
have elapsed since `At`, refresh `At`, clear `Failure` and set `changed`.
Returns the updated record and the `changed` flag (which decides the
enqueue). -/
def syncExistingRecord (now : Nat) (id location : String) (e : AuditRecord) :
    AuditRecord × Bool :=
  let drift := (e.location != location) || (e.id != id)
  if now - e.observedAt > twelveHoursNanos then
    ({ e with observedAt := now, failure := none }, true)
  else
    (e, drift)

/-- The accumulating state of `AuditTracker.Sync`'s tag loop: the record
map (as a lookup function), the `found` set and the enqueued tag names. -/
structure SyncState where
  records : String → Option AuditRecord
  found : List String
  enqueued : List String

/-- The body of the tag loop in `AuditTracker.Sync` (audit.go:316-366):
skip non-qualifying tags; insert the tag name into `found`; create a new
record (and enqueue) when absent, else update it via
`syncExistingRecord` and enqueue when changed. -/
def syncTagStep (now : Nat) (release : ReleaseView) (s : SyncState) (t : TagView) :
    SyncState :=
  if !tagQualifies t then s
  else
    match s.records t.name with
    | none =>
        { records := fun k => if k == t.name then
            some { observedAt := now
                   name := t.name
                   id := t.resolvedID
                   location := t.resolvedLocation
                   release := release.configName
                   imageStreamNamespace := release.sourceNamespace
                   imageStreamName := release.sourceName
                   failure := none }
          else s.records k
          found := s.found ++ [t.name]
          enqueued := s.enqueued ++ [t.name] }
    | some existing =>
        let r := syncExistingRecord now t.resolvedID t.resolvedLocation existing
        { records := fun k => if k == t.name then some r.1 else s.records k
          found := s.found ++ [t.name]
          enqueued := if r.2 then s.enqueued ++ [t.name] else s.enqueued }

/-- `AuditTracker.Sync` (audit.go:304-378): no-op unless the release's
`Config.As` is the stable mode; otherwise run the tag loop and then
delete every record whose `Release` equals this release's name and whose
tag name was not `found`. Returns the resulting record map and the
enqueued tag names. -/
def auditTrackerSync (now : Nat) (release : ReleaseView) (tags : List TagView)
    (records : String → Option AuditRecord) :
    (String → Option AuditRecord) × List String :=
  if release.configAs != releaseConfigModeStable then (records, [])
  else
    let s := tags.foldl (syncTagStep now release)
      { records := records, found := [], enqueued := [] }
    (fun k => match s.records k with
      | some v =>
          if v.release == release.configName && !(s.found.contains k) then none
          else some v
      | none => none,
     s.enqueued)

/-- `AuditTracker.SetFailure` (audit.go:273-286): no-op when the record is
gone; else refresh `At` and set `Failure` to `VerificationFailed` with
the message. -/
def auditTrackerSetFailure (now : Nat) (name message : String)
    (records : String → Option AuditRecord) : String → Option AuditRecord :=
  match records name with
  | none => records
  | some existing => fun k =>
      if k == name then
        some { existing with
               observedAt := now
               failure := some { reason := "VerificationFailed", message := message } }
      else records k

/-- The outcome of a Go function call: a normal return or a propagating
panic carrying a recovered value (`none` models a nil panic value). -/
inductive GoResult (α : Type) where
  | ret : α → GoResult α
  | panicked : Option String → GoResult α
  deriving DecidableEq, Repr

/-- The `defer func() { err := recover(); panic(err) }()` wrapper of
`syncAudit` (audit.go:30-33): after the body finishes, `recover()` yields
the body's panic value — or nil when the body returned normally — and
`panic(err)` is raised unconditionally with that value. -/
def syncAuditRecoverWrap {α : Type} (body : GoResult α) : GoResult α :=
  match body with
  | GoResult.ret _ => GoResult.panicked none
  | GoResult.panicked v => GoResult.panicked v

/-- The body of `syncAudit` below the deferred wrapper (audit.go:35-42):
return the release-load error (or nil), running `auditTracker.Sync` when
a release was loaded; a panic in the body is carried through as such. -/
def syncAuditBody (bodyPanics : Option (Option String)) (loadErr : Option String) :
    GoResult (Option String) :=
  match bodyPanics with
  | some v => GoResult.panicked v
  | none => GoResult.ret loadErr

/-- `syncAudit` (audit.go:29-43): the body guarded by the deferred
recover-then-repanic wrapper. -/
def syncAudit (bodyPanics : Option (Option String)) (loadErr : Option String) :
    GoResult (Option String) :=
  syncAuditRecoverWrap (syncAuditBody bodyPanics loadErr)

/-! Effect classifiers used to state which collaborators a reconciliation
invoked. -/

def isSignEffect : Effect → Bool
  | Effect.sign _ _ => true
  | _ => false

def isPutSignatureEffect : Effect → Bool
  | Effect.putSignature _ => true
  | _ => false

def isVerifyBackendEffect : Effect → Bool
  | Effect.localVerify _ => true
  | Effect.ensureJob _ => true
  | _ => false

def effectCount (p : Effect → Bool) (l : List Effect) : Nat := (l.filter p).length

/-! Concrete fixtures used by witnesses and counterexamples. -/

def sampleRecord : AuditRecord :=
  { observedAt := 0
    name := "4.10.0-tag"
    id := "sha256:abcd"
    location := "registry.example/repo@sha256:abcd"
    release := "R1"
    imageStreamNamespace := "ns"
    imageStreamName := "is"
    failure := none }

def sampleRelease : ReleaseView :=
  { configName := "R1"
    configAs := "Stable"
    overrideCLIImage := ""
    pullSecretName := "ps"
    sourceNamespace := "ns"
    sourceName := "is"
    targetNamespace := "tns"
    targetName := "tn" }

def baseEnv : Env :=
  { record? := some sampleRecord
    loadErr := none
    loadedRelease := some sampleRelease
    storeHasSignature := fun _ => false
    cliImageForAudit := "registry.example/cli"
    localVerifyFails := false
    localVerifyOutput := ""
    jobListing := some []
    ensureJobRet := some { complete := true, success := true }
    ensureJobErr := none
    termMessage := ""
    signerConfigured := true
    signErr := none
    putSignatureErr := none }

def envC5 : Env := { baseEnv with record? := some { sampleRecord with id := "" } }

def envSigned : Env := { baseEnv with storeHasSignature := fun _ => true }

def unfinishedJob : JobItem := { completionTime := none }

def envC2 : Env := { baseEnv with jobListing := some [unfinishedJob, unfinishedJob] }

def envC7 : Env :=
  { baseEnv with jobListing := some [unfinishedJob, unfinishedJob, unfinishedJob] }

def envC10 : Env :=
  { baseEnv with
    cliImageForAudit := ""
    loadedRelease := some { sampleRelease with overrideCLIImage := "local" } }

def envListFail : Env := { baseEnv with jobListing := none }

def failedRecord : AuditRecord :=
  { sampleRecord with
    failure := some { reason := "VerificationFailed", message := "boom" } }

def envFailed : Env := { baseEnv with record? := some failedRecord }

def syncState0 : SyncState :=
  { records := fun k => if k == "4.10.0-tag" then some sampleRecord else none
    found := []
    enqueued := [] }

def driftTag : TagView :=
  { name := "4.10.0-tag"
    hasSourceAnnotation := true
    phase := "Accepted"
    resolvedID := "sha256:other"
    resolvedLocation := "registry.example/repo@sha256:abcd" }

def r2Record : AuditRecord :=
  { observedAt := 0
    name := "other-tag"
    id := "sha256:zzzz"
    location := "registry.example/repo@sha256:zzzz"
    release := "R2"
    imageStreamNamespace := "ns2"
    imageStreamName := "is2"
    failure := none }

def gcRecords : String → Option AuditRecord :=
  fun k => if k == "4.10.0-tag" then some sampleRecord
    else if k == "other-tag" then some r2Record else none

def collidingTag : TagView :=
  { name := "4.10.0-tag"
    hasSourceAnnotation := true
    phase := "Accepted"
    resolvedID := "sha256:abcd"
    resolvedLocation := "registry.example/repo@sha256:abcd" }

def failedR1Record : AuditRecord :=
  { sampleRecord with
    failure := some { reason := "VerificationFailed", message := "m" } }

def otherRelease : ReleaseView :=
  { sampleRelease with configName := "R2", sourceNamespace := "ns2", sourceName := "is2" }

/-! Helper lemmas: which effects each stage of `syncAuditTag` can add, and
exact characterizations of the short-circuit branches. -/

theorem effectCount_append (p : Effect → Bool) (l1 l2 : List Effect) :
    effectCount p (l1 ++ l2) = effectCount p l1 + effectCount p l2 := by
  simp [effectCount, List.filter_append]

theorem auditSignStep_mem (c : Env) (record : AuditRecord) (effs : List Effect)
    (e : Effect) (h : e ∈ (auditSignStep c record effs).2) :
    e ∈ effs ∨ e = Effect.sign record.id record.location ∨
      e = Effect.putSignature record.id := by
  unfold auditSignStep at h
  repeat' split at h
  all_goals simp at h
  all_goals tauto

theorem auditSignStep_sign_le (c : Env) (record : AuditRecord) (effs : List Effect)
    (h : effectCount isSignEffect effs = 0) :
    effectCount isSignEffect (auditSignStep c record effs).2 ≤ 1 := by
  unfold auditSignStep
  repeat' split
  all_goals simp only [effectCount_append, h]
  all_goals simp [effectCount, isSignEffect]

theorem auditSignStep_put_le (c : Env) (record : AuditRecord) (effs : List Effect)
    (h : effectCount isPutSignatureEffect effs = 0) :
    effectCount isPutSignatureEffect (auditSignStep c record effs).2 ≤ 1 := by
  unfold auditSignStep
  repeat' split
  all_goals simp only [effectCount_append, h]
  all_goals simp [effectCount, isPutSignatureEffect]

theorem auditLocalStep_mem (c : Env) (record : AuditRecord) (effs : List Effect)
    (e : Effect) (h : e ∈ (auditLocalStep c record effs).2) :
    e ∈ effs ∨ e = Effect.localVerify record.location ∨
      (∃ m, e = Effect.setFailure record.name "VerificationFailed" m) ∨
      e = Effect.sign record.id record.location ∨
      e = Effect.putSignature record.id := by
  unfold auditLocalStep at h
  split at h
  · simp at h
    aesop
  · have := auditSignStep_mem c record _ e h
    simp at this
    aesop

theorem auditClusterStep_throttled (c : Env) (tag : String) (record : AuditRecord)
    (release : ReleaseView) (effs : List Effect)
    (h : (countAuditVerifyJobs c.jobListing).2 = false ∨
      2 < (countAuditVerifyJobs c.jobListing).1) :
    auditClusterStep c tag record release effs =
      (Except.ok (),
        effs ++ [Effect.countJobs, Effect.requeueAfter tag tenSecondsNanos]) := by
  unfold auditClusterStep
  rcases h with h | h <;> simp [h]

theorem auditClusterStep_mem (c : Env) (tag : String) (record : AuditRecord)
    (release : ReleaseView) (effs : List Effect)
    (e : Effect) (h : e ∈ (auditClusterStep c tag record release effs).2) :
    e ∈ effs ∨ e = Effect.countJobs ∨
      e = Effect.ensureJob (makeAuditVerifyJob release record) ∨
      e = Effect.requeueAfter tag tenSecondsNanos ∨
      (∃ m, e = Effect.setFailure record.name "VerificationFailed" m) ∨
      e = Effect.sign record.id record.location ∨
      e = Effect.putSignature record.id := by
  unfold auditClusterStep at h
  split at h
  case isTrue =>
    simp at h
    aesop
  case isFalse =>
    split at h
    case h_1 =>
      simp at h
      aesop
    case h_2 =>
      simp at h
      aesop
    case h_3 =>
      split at h
      case isTrue =>
        simp at h
        aesop
      case isFalse =>
        split at h
        case isTrue =>
          simp at h
          aesop
        case isFalse =>
          have := auditSignStep_mem c record _ e h
          simp at this
          aesop

theorem auditClusterStep_ensure_admitted (c : Env) (tag : String)
    (record : AuditRecord) (release : ReleaseView) (effs : List Effect)
    (spec : VerifyJobSpec)
    (h : Effect.ensureJob spec ∈ (auditClusterStep c tag record release effs).2)
    (h0 : Effect.ensureJob spec ∉ effs) :
    spec = makeAuditVerifyJob release record ∧
      (countAuditVerifyJobs c.jobListing).2 = true ∧
      (countAuditVerifyJobs c.jobListing).1 ≤ 2 := by
  by_cases ht : (countAuditVerifyJobs c.jobListing).2 = false ∨
      2 < (countAuditVerifyJobs c.jobListing).1
  · rw [auditClusterStep_throttled c tag record release effs ht] at h
    simp at h
    exact absurd h h0
  · simp only [not_or, Bool.not_eq_false, Nat.not_lt] at ht
    have hm := auditClusterStep_mem c tag record release effs _ h
    refine ⟨?_, ht.1, ht.2⟩
    rcases hm with hm | hm | hm | hm | hm | hm | hm
    · exact absurd hm h0
    · exact absurd hm (by simp)
    · simpa using hm
    · exact absurd hm (by simp)
    · rcases hm with ⟨m, hm⟩
      exact absurd hm (by simp)
    · exact absurd hm (by simp)
    · exact absurd hm (by simp)

theorem syncAuditTag_loaded (c : Env) (tag : String) (record : AuditRecord)
    (release : ReleaseView)
    (hrec : c.record? = some record) (hf : record.failure = none)
    (hid : record.id.length ≠ 0) (hle : c.loadErr = none)
    (hlr : c.loadedRelease = some release) :
    syncAuditTag c tag = auditAfterLoad c tag record release := by
  unfold syncAuditTag
  simp [hrec, hf, hid, hle, hlr]

theorem auditAfterLoad_signed (c : Env) (tag : String) (record : AuditRecord)
    (release : ReleaseView) (hsig : c.storeHasSignature record.id = true) :
    auditAfterLoad c tag record release =
      (Except.ok (),
        [Effect.loadRelease record.imageStreamNamespace record.imageStreamName,
         Effect.hasSignature record.id]) := by
  unfold auditAfterLoad
  simp [hsig]

theorem auditAfterLoad_unsigned (c : Env) (tag : String) (record : AuditRecord)
    (release : ReleaseView) (hsig : c.storeHasSignature record.id = false) :
    auditAfterLoad c tag record release =
      auditImageDispatch c tag record release (auditImage c release)
        [Effect.loadRelease record.imageStreamNamespace record.imageStreamName,
         Effect.hasSignature record.id] := by
  unfold auditAfterLoad
  simp [hsig]

theorem syncAuditTag_shape (c : Env) (tag : String) :
    (syncAuditTag c tag).2 = [] ∨
    (∃ record, c.record? = some record ∧
      ((syncAuditTag c tag).2 = [Effect.setFailure record.name "VerificationFailed"
          ("Release " ++ record.name ++ " has no digest and cannot be verified")] ∨
       (syncAuditTag c tag).2 =
          [Effect.loadRelease record.imageStreamNamespace record.imageStreamName] ∨
       (∃ release, c.loadedRelease = some release ∧ c.loadErr = none ∧
          record.failure = none ∧ record.id.length ≠ 0 ∧
          syncAuditTag c tag = auditAfterLoad c tag record release))) := by
  rcases hrec : c.record? with _ | record
  · left
    simp [syncAuditTag, hrec]
  · by_cases hf : record.failure.isSome
    · left
      simp [syncAuditTag, hrec, hf]
    · rw [Option.not_isSome_iff_eq_none] at hf
      by_cases hid : record.id.length = 0
      · right
        exact ⟨record, rfl, Or.inl (by simp [syncAuditTag, hrec, hf, hid])⟩
      · rcases hle : c.loadErr with _ | err
        · rcases hlr : c.loadedRelease with _ | release
          · right
            exact ⟨record, rfl, Or.inr (Or.inl
              (by simp [syncAuditTag, hrec, hf, hid, hle, hlr]))⟩
          · right
            exact ⟨record, rfl, Or.inr (Or.inr ⟨release, rfl, rfl, hf, hid,
              syncAuditTag_loaded c tag record release hrec hf hid hle hlr⟩)⟩
        · right
          exact ⟨record, rfl, Or.inr (Or.inl
            (by simp [syncAuditTag, hrec, hf, hid, hle]))⟩

theorem auditLocalStep_sign_le (c : Env) (record : AuditRecord) (effs : List Effect)
    (h : effectCount isSignEffect effs = 0) :
    effectCount isSignEffect (auditLocalStep c record effs).2 ≤ 1 := by
  unfold auditLocalStep
  split
  · simp only [effectCount_append, h]
    simp [effectCount, isSignEffect]
  · exact auditSignStep_sign_le c record _
      (by simp only [effectCount_append, h]; simp [effectCount, isSignEffect])

theorem auditLocalStep_put_le (c : Env) (record : AuditRecord) (effs : List Effect)
    (h : effectCount isPutSignatureEffect effs = 0) :
    effectCount isPutSignatureEffect (auditLocalStep c record effs).2 ≤ 1 := by
  unfold auditLocalStep
  split
  · simp only [effectCount_append, h]
    simp [effectCount, isPutSignatureEffect]
  · exact auditSignStep_put_le c record _
      (by simp only [effectCount_append, h]; simp [effectCount, isPutSignatureEffect])

theorem auditClusterStep_sign_le (c : Env) (tag : String) (record : AuditRecord)
    (release : ReleaseView) (effs : List Effect)
    (h : effectCount isSignEffect effs = 0) :
    effectCount isSignEffect (auditClusterStep c tag record release effs).2 ≤ 1 := by
  unfold auditClusterStep
  repeat' split
  all_goals first
    | exact auditSignStep_sign_le c record _
        (by simp only [effectCount_append, h]; simp [effectCount, isSignEffect])
    | (simp only [effectCount_append, h]; simp [effectCount, isSignEffect])

theorem auditClusterStep_put_le (c : Env) (tag : String) (record : AuditRecord)
    (release : ReleaseView) (effs : List Effect)
    (h : effectCount isPutSignatureEffect effs = 0) :
    effectCount isPutSignatureEffect (auditClusterStep c tag record release effs).2 ≤ 1 := by
  unfold auditClusterStep
  repeat' split
  all_goals first
    | exact auditSignStep_put_le c record _
        (by simp only [effectCount_append, h]; simp [effectCount, isPutSignatureEffect])
    | (simp only [effectCount_append, h]; simp [effectCount, isPutSignatureEffect])

theorem syncAuditTag_sign_le (c : Env) (tag : String) :
    effectCount isSignEffect (syncAuditTag c tag).2 ≤ 1 := by
  rcases syncAuditTag_shape c tag with hs | ⟨record, hrec, hs⟩
  · simp [hs, effectCount]
  · rcases hs with hs | hs | ⟨release, hlr, hle, hf, hid, heq⟩
    · simp [hs, effectCount, isSignEffect]
    · simp [hs, effectCount, isSignEffect]
    · rw [heq]
      cases hsig : c.storeHasSignature record.id
      · rw [auditAfterLoad_unsigned c tag record release hsig]
        unfold auditImageDispatch
        split
        · simp [effectCount, isSignEffect]
        · split
          · exact auditLocalStep_sign_le c record _
              (by simp [effectCount, isSignEffect])
          · exact auditClusterStep_sign_le c tag record release _
              (by simp [effectCount, isSignEffect])
      · rw [auditAfterLoad_signed c tag record release hsig]
        simp [effectCount, isSignEffect]

theorem syncAuditTag_put_le (c : Env) (tag : String) :
    effectCount isPutSignatureEffect (syncAuditTag c tag).2 ≤ 1 := by
  rcases syncAuditTag_shape c tag with hs | ⟨record, hrec, hs⟩
  · simp [hs, effectCount]
  · rcases hs with hs | hs | ⟨release, hlr, hle, hf, hid, heq⟩
    · simp [hs, effectCount, isPutSignatureEffect]
    · simp [hs, effectCount, isPutSignatureEffect]
    · rw [heq]
      cases hsig : c.storeHasSignature record.id
      · rw [auditAfterLoad_unsigned c tag record release hsig]
        unfold auditImageDispatch
        split
        · simp [effectCount, isPutSignatureEffect]
        · split
          · exact auditLocalStep_put_le c record _
              (by simp [effectCount, isPutSignatureEffect])
          · exact auditClusterStep_put_le c tag record release _
              (by simp [effectCount, isPutSignatureEffect])
      · rw [auditAfterLoad_signed c tag record release hsig]
        simp [effectCount, isPutSignatureEffect]

/-- Claim C1: when the store already holds a signature for the record's
digest, `syncAuditTag` performs no `Sign`, no `PutSignature` and no
verification-backend call (neither the local subprocess nor a job
ensure); moreover any single reconciliation invokes `Sign` at most once
and `PutSignature` at most once. -/
theorem syncAuditTag_at_most_once_signing :
    (∀ (c : Env) (tag : String) (record : AuditRecord), c.record? = some record →
       c.storeHasSignature record.id = true →
       (∀ d l, Effect.sign d l ∉ (syncAuditTag c tag).2) ∧
       (∀ d, Effect.putSignature d ∉ (syncAuditTag c tag).2) ∧
       (∀ l, Effect.localVerify l ∉ (syncAuditTag c tag).2) ∧
       (∀ s, Effect.ensureJob s ∉ (syncAuditTag c tag).2)) ∧
    (∀ (c : Env) (tag : String),
       effectCount isSignEffect (syncAuditTag c tag).2 ≤ 1 ∧
       effectCount isPutSignatureEffect (syncAuditTag c tag).2 ≤ 1) := by
  constructor
  · intro c tag record hrec hsig
    rcases syncAuditTag_shape c tag with hs | ⟨record2, hrec2, hs⟩
    · simp [hs]
    · have hrr : record2 = record := by
        rw [hrec] at hrec2
        exact Option.some.inj hrec2.symm
      subst hrr
      rcases hs with hs | hs | ⟨release, hlr, hle, hf, hid, heq⟩
      · simp [hs]
      · simp [hs]
      · rw [heq, auditAfterLoad_signed c tag record2 release hsig]
        simp
  · intro c tag
    exact ⟨syncAuditTag_sign_le c tag, syncAuditTag_put_le c tag⟩

/-- Witness for C1 at a concrete environment whose store already holds
the signature. -/
theorem syncAuditTag_at_most_once_signing_witness :
    Effect.sign "sha256:abcd" "registry.example/repo@sha256:abcd" ∉
        (syncAuditTag envSigned "4.10.0-tag").2 ∧
    Effect.putSignature "sha256:abcd" ∉ (syncAuditTag envSigned "4.10.0-tag").2 ∧
    effectCount isSignEffect (syncAuditTag envSigned "4.10.0-tag").2 ≤ 1 :=
  ⟨(syncAuditTag_at_most_once_signing.1 envSigned "4.10.0-tag" sampleRecord rfl rfl).1
      "sha256:abcd" "registry.example/repo@sha256:abcd",
   (syncAuditTag_at_most_once_signing.1 envSigned "4.10.0-tag" sampleRecord rfl rfl).2.1
      "sha256:abcd",
   (syncAuditTag_at_most_once_signing.2 envSigned "4.10.0-tag").1⟩

/-- Claim C4 (code-bug evidence): the deferred wrapper of `syncAudit` is
not transparent. When the body returns normally (here: release load
returns nil error), `recover()` yields nil and `panic(nil)` fires, so
`syncAudit` panics instead of returning the body's result. -/
theorem syncAudit_wrapper_panics_on_normal_return :
    syncAudit none none = GoResult.panicked none ∧
    syncAuditBody none none = GoResult.ret none ∧
    (GoResult.panicked none : GoResult (Option String)) ≠ GoResult.ret none := by
  refine ⟨rfl, rfl, ?_⟩
  intro h
  exact GoResult.noConfusion h

/-- Claim C5: a tracked record with no prior failure and an empty
digest is failed on its first reconciliation — `syncAuditTag` returns nil
having performed exactly one `SetFailure` with the no-digest message and
no other collaborator call. -/
theorem syncAuditTag_no_digest_fails_immediately (c : Env) (tag : String)
    (record : AuditRecord)
    (hrec : c.record? = some record)
    (hfail : record.failure = none)
    (hid : record.id = "") :
    syncAuditTag c tag =
      (Except.ok (), [Effect.setFailure record.name "VerificationFailed"
        ("Release " ++ record.name ++ " has no digest and cannot be verified")]) := by
  unfold syncAuditTag
  simp [hrec, hfail, hid]

/-- Witness for C5 at a concrete environment. -/
theorem syncAuditTag_no_digest_fails_immediately_witness :
    syncAuditTag envC5 "4.10.0-tag" =
      (Except.ok (), [Effect.setFailure "4.10.0-tag" "VerificationFailed"
        "Release 4.10.0-tag has no digest and cannot be verified"]) :=
  syncAuditTag_no_digest_fails_immediately envC5 "4.10.0-tag"
    { sampleRecord with id := "" } rfl rfl rfl

theorem auditSignStep_prefix (c : Env) (record : AuditRecord) (effs : List Effect) :
    ∃ tail, (auditSignStep c record effs).2 = effs ++ tail := by
  unfold auditSignStep
  repeat' split
  · exact ⟨[], by simp⟩
  · exact ⟨[Effect.sign record.id record.location], rfl⟩
  · exact ⟨[Effect.sign record.id record.location, Effect.putSignature record.id], rfl⟩
  · exact ⟨[Effect.sign record.id record.location, Effect.putSignature record.id], rfl⟩

theorem auditClusterStep_countJobs_mem (c : Env) (tag : String) (record : AuditRecord)
    (release : ReleaseView) (effs : List Effect) :
    Effect.countJobs ∈ (auditClusterStep c tag record release effs).2 := by
  unfold auditClusterStep
  repeat' split
  all_goals first
    | simp
    | (obtain ⟨tail, htail⟩ := auditSignStep_prefix c record
        (effs ++ [Effect.countJobs, Effect.ensureJob (makeAuditVerifyJob release record)])
       rw [htail]
       simp)

theorem syncAuditTag_ensure_inv (c : Env) (tag : String) (spec : VerifyJobSpec)
    (h : Effect.ensureJob spec ∈ (syncAuditTag c tag).2) :
    (countAuditVerifyJobs c.jobListing).2 = true ∧
    (countAuditVerifyJobs c.jobListing).1 ≤ 2 ∧
    Effect.countJobs ∈ (syncAuditTag c tag).2 ∧
    ∃ record release, c.record? = some record ∧ c.loadedRelease = some release ∧
      spec = makeAuditVerifyJob release record := by
  rcases syncAuditTag_shape c tag with hs | ⟨record, hrec, hs⟩
  · rw [hs] at h
    simp at h
  · rcases hs with hs | hs | ⟨release, hlr, hle, hf, hid, heq⟩
    · rw [hs] at h
      simp at h
    · rw [hs] at h
      simp at h
    · cases hsig : c.storeHasSignature record.id
      case false =>
        rw [heq, auditAfterLoad_unsigned c tag record release hsig] at h ⊢
        by_cases himg0 : (auditImage c release).length = 0
        · simp [auditImageDispatch, himg0] at h
        · by_cases himgl : auditImage c release = "local"
          · simp [auditImageDispatch, himg0, himgl] at h
            have := auditLocalStep_mem c record _ _ h
            simp at this
          · simp only [auditImageDispatch] at h ⊢
            rw [if_neg (by simpa using himg0), if_neg (by simpa using himgl)] at h ⊢
            have hadm := auditClusterStep_ensure_admitted c tag record release _ spec h
              (by simp)
            exact ⟨hadm.2.1, hadm.2.2,
              auditClusterStep_countJobs_mem c tag record release _,
              record, release, hrec, hlr, hadm.1⟩
      case true =>
        rw [heq, auditAfterLoad_signed c tag record release hsig] at h
        simp at h



/-- Claim C2 counterexample: with a successful listing of exactly 2
unfinished audit jobs — a count equal to, not below, the stated limit of
2 — the reconciler still ensures the verification job (`count > 2` is
the code's throttle test), so "create only when the count is below the
limit" fails at count 2. -/
theorem syncAuditTag_job_admission_below_limit_cex :
    countAuditVerifyJobs envC2.jobListing = (2, true) ∧
    Effect.ensureJob (makeAuditVerifyJob sampleRelease sampleRecord) ∈
      (syncAuditTag envC2 "4.10.0-tag").2 ∧
    ¬ (2 < 2) := by decide

/-- Claim C2 (amended): a job is ensured only when the listing succeeds
and the unfinished count is at most 2 (so up to 3 unfinished jobs can
exist); when the listing fails or the count exceeds 2 on the cluster
path, no job is ensured, no failure is recorded, the reconciliation
returns nil and the tag is requeued after 10 seconds. -/
theorem syncAuditTag_job_admission_fail_closed :
    (∀ (c : Env) (tag : String) (record : AuditRecord) (release : ReleaseView),
       c.record? = some record → record.failure = none → record.id.length ≠ 0 →
       c.loadErr = none → c.loadedRelease = some release →
       c.storeHasSignature record.id = false →
       (auditImage c release).length ≠ 0 → auditImage c release ≠ "local" →
       ((countAuditVerifyJobs c.jobListing).2 = false ∨
         2 < (countAuditVerifyJobs c.jobListing).1) →
       syncAuditTag c tag = (Except.ok (),
         [Effect.loadRelease record.imageStreamNamespace record.imageStreamName,
          Effect.hasSignature record.id, Effect.countJobs,
          Effect.requeueAfter tag tenSecondsNanos])) ∧
    (∀ (c : Env) (tag : String) (spec : VerifyJobSpec),
       Effect.ensureJob spec ∈ (syncAuditTag c tag).2 →
       (countAuditVerifyJobs c.jobListing).2 = true ∧
       (countAuditVerifyJobs c.jobListing).1 ≤ 2) := by
  constructor
  · intro c tag record release hrec hf hid hle hlr hsig himg0 himgl ht
    rw [syncAuditTag_loaded c tag record release hrec hf hid hle hlr,
        auditAfterLoad_unsigned c tag record release hsig]
    simp only [auditImageDispatch]
    rw [if_neg (by simpa using himg0), if_neg (by simpa using himgl),
        auditClusterStep_throttled c tag record release _ ht]
    rfl
  · intro c tag spec h
    have hinv := syncAuditTag_ensure_inv c tag spec h
    exact ⟨hinv.1, hinv.2.1⟩

/-- Witness for C2: a failed listing (fail closed) requeues after 10s
with no job ensured and no failure recorded. -/
theorem syncAuditTag_job_admission_fail_closed_witness :
    syncAuditTag envListFail "4.10.0-tag" = (Except.ok (),
      [Effect.loadRelease "ns" "is", Effect.hasSignature "sha256:abcd",
       Effect.countJobs, Effect.requeueAfter "4.10.0-tag" tenSecondsNanos]) :=
  syncAuditTag_job_admission_fail_closed.1 envListFail "4.10.0-tag" sampleRecord
    sampleRelease rfl rfl (by decide) rfl rfl rfl (by decide) (by decide) (Or.inl rfl)

/-- Claim C7 counterexample: the admission check runs before — not after —
job acquisition: with 3 unfinished jobs listed while the ensure
collaborator would return an existing completed job, the reconciler
performs the admission check and requeues; the existing job is neither
ensured nor polled. -/
theorem auditCluster_admission_before_acquisition_cex :
    envC7.ensureJobRet = some { complete := true, success := true } ∧
    (syncAuditTag envC7 "4.10.0-tag").1 = Except.ok () ∧
    (syncAuditTag envC7 "4.10.0-tag").2 =
      [Effect.loadRelease "ns" "is", Effect.hasSignature "sha256:abcd",
       Effect.countJobs, Effect.requeueAfter "4.10.0-tag" tenSecondsNanos] :=
  ⟨rfl, rfl, by decide⟩

/-- Claim C7 (amended): on the cluster path the admission check always
precedes job acquisition — a job ensure implies the count query ran,
succeeded and was at most 2; and under throttle or listing failure the
step requeues without acquiring or polling any job, whatever the ensure
collaborator would have returned. -/
theorem auditCluster_admission_before_acquisition :
    (∀ (c : Env) (tag : String) (spec : VerifyJobSpec),
       Effect.ensureJob spec ∈ (syncAuditTag c tag).2 →
       Effect.countJobs ∈ (syncAuditTag c tag).2 ∧
       (countAuditVerifyJobs c.jobListing).2 = true ∧
       (countAuditVerifyJobs c.jobListing).1 ≤ 2) ∧
    (∀ (c : Env) (tag : String) (record : AuditRecord) (release : ReleaseView)
       (effs : List Effect),
       ((countAuditVerifyJobs c.jobListing).2 = false ∨
         2 < (countAuditVerifyJobs c.jobListing).1) →
       auditClusterStep c tag record release effs =
         (Except.ok (),
           effs ++ [Effect.countJobs, Effect.requeueAfter tag tenSecondsNanos])) := by
  constructor
  · intro c tag spec h
    have hinv := syncAuditTag_ensure_inv c tag spec h
    exact ⟨hinv.2.2.1, hinv.1, hinv.2.1⟩
  · exact fun c tag record release effs ht =>
      auditClusterStep_throttled c tag record release effs ht

/-- Witness for C7 at a concrete admitted environment. -/
theorem auditCluster_admission_before_acquisition_witness :
    Effect.countJobs ∈ (syncAuditTag baseEnv "4.10.0-tag").2 ∧
    (countAuditVerifyJobs baseEnv.jobListing).2 = true ∧
    (countAuditVerifyJobs baseEnv.jobListing).1 ≤ 2 :=
  auditCluster_admission_before_acquisition.1 baseEnv "4.10.0-tag"
    (makeAuditVerifyJob sampleRelease sampleRecord) (by decide)

/-- Claim C9: every ensured verification job is built with
`cliImage = release.Config.OverrideCLIImage`, never the controller's
pinned audit image; hence a release without an override yields a job
with an empty CLI image even when the pinned image selected the cluster
path. -/
theorem ensureAuditVerifyJob_cliImage_from_override (c : Env) (tag : String)
    (release : ReleaseView) (spec : VerifyJobSpec)
    (hrel : c.loadedRelease = some release)
    (hmem : Effect.ensureJob spec ∈ (syncAuditTag c tag).2) :
    spec.cliImage = release.overrideCLIImage ∧
      (release.overrideCLIImage = "" → spec.cliImage = "") := by
  obtain ⟨-, -, -, record, release2, hrec2, hlr2, hspec⟩ :=
    syncAuditTag_ensure_inv c tag spec hmem
  have hrr : release = release2 := Option.some.inj (hrel.symm.trans hlr2)
  subst hrr
  constructor
  · rw [hspec]
    simp [makeAuditVerifyJob]
  · intro h0
    rw [hspec]
    simp [makeAuditVerifyJob, h0]

/-- Witness for C9: the pinned image selected the cluster path, the
release has no override, and the built job's CLI image is empty. -/
theorem ensureAuditVerifyJob_cliImage_from_override_witness :
    (makeAuditVerifyJob sampleRelease sampleRecord).cliImage = "" :=
  (ensureAuditVerifyJob_cliImage_from_override baseEnv "4.10.0-tag" sampleRelease
    (makeAuditVerifyJob sampleRelease sampleRecord) rfl (by decide)).2 rfl

/-- Claim C10: with no pinned audit CLI image and the release's
`OverrideCLIImage` equal to `"local"`, a reconciliation takes the
local-subprocess verification path: the subprocess runs against the
record's location and no cluster-job collaborator (count or ensure) is
touched. -/
theorem syncAuditTag_local_override_selects_local (c : Env) (tag : String)
    (record : AuditRecord) (release : ReleaseView)
    (hrec : c.record? = some record) (hf : record.failure = none)
    (hid : record.id.length ≠ 0) (hle : c.loadErr = none)
    (hlr : c.loadedRelease = some release)
    (hsig : c.storeHasSignature record.id = false)
    (hcli : c.cliImageForAudit = "")
    (hover : release.overrideCLIImage = "local") :
    Effect.localVerify record.location ∈ (syncAuditTag c tag).2 ∧
    Effect.countJobs ∉ (syncAuditTag c tag).2 ∧
    (∀ spec, Effect.ensureJob spec ∉ (syncAuditTag c tag).2) := by
  rw [syncAuditTag_loaded c tag record release hrec hf hid hle hlr,
      auditAfterLoad_unsigned c tag record release hsig]
  have himg : auditImage c release = "local" := by
    simp [auditImage, hcli, hover]
  rw [himg]
  simp only [auditImageDispatch]
  rw [if_neg (by decide), if_pos (by decide)]
  refine ⟨?_, ?_, ?_⟩
  · unfold auditLocalStep
    split
    · simp
    · obtain ⟨tail, htail⟩ := auditSignStep_prefix c record _
      rw [htail]
      simp
  · intro hmem
    have := auditLocalStep_mem c record _ _ hmem
    simp at this
  · intro spec hmem
    have := auditLocalStep_mem c record _ _ hmem
    simp at this

/-- Witness for C10 at a concrete environment. -/
theorem syncAuditTag_local_override_selects_local_witness :
    Effect.localVerify "registry.example/repo@sha256:abcd" ∈
      (syncAuditTag envC10 "4.10.0-tag").2 ∧
    Effect.countJobs ∉ (syncAuditTag envC10 "4.10.0-tag").2 ∧
    (∀ spec, Effect.ensureJob spec ∉ (syncAuditTag envC10 "4.10.0-tag").2) :=
  syncAuditTag_local_override_selects_local envC10 "4.10.0-tag" sampleRecord
    { sampleRelease with overrideCLIImage := "local" }
    rfl rfl (by decide) rfl rfl rfl rfl rfl

theorem truncateName_length (s : String) : (truncateName s).length ≤ 63 := by
  unfold truncateName
  split
  · rw [String.length_mk]
    simp [List.length_take]
  · omega

theorem truncateName_data_take7 (s : String) :
    (truncateName s).data.take 7 = s.data.take 7 := by
  unfold truncateName
  split
  · show (s.data.take 63).take 7 = s.data.take 7
    rw [List.take_take]
    norm_num
  · rfl

theorem truncateName_mem (s : String) (ch : Char)
    (h : ch ∈ (truncateName s).data) : ch ∈ s.data := by
  unfold truncateName at h
  split at h
  · exact List.take_subset _ _ h
  · exact h

theorem colonToDash_no_colon (s : String) (ch : Char)
    (h : ch ∈ (colonToDash s).data) : ch ≠ ':' := by
  unfold colonToDash at h
  simp at h
  obtain ⟨a, _, ha⟩ := h
  by_cases hc : a = ':'
  · subst hc
    simp at ha
    subst ha
    decide
  · rw [if_neg (by simpa using hc)] at ha
    subst ha
    exact hc

theorem syncExistingRecord_cooldown (now : Nat) (id location : String)
    (e : AuditRecord) (h : now - e.observedAt > twelveHoursNanos) :
    syncExistingRecord now id location e =
      ({ e with observedAt := now, failure := none }, true) := by
  unfold syncExistingRecord
  simp [h]

theorem syncExistingRecord_within (now : Nat) (id location : String)
    (e : AuditRecord) (h : ¬ now - e.observedAt > twelveHoursNanos) :
    (syncExistingRecord now id location e).1 = e ∧
    ((syncExistingRecord now id location e).2 = true ↔
      (e.location ≠ location ∨ e.id ≠ id)) := by
  unfold syncExistingRecord
  simp [h]

theorem contains_iff_mem_string (l : List String) (k : String) :
    l.contains k = true ↔ k ∈ l := by
  simp [List.contains]

theorem syncTagStep_records_skip (now : Nat) (release : ReleaseView) (s : SyncState)
    (t : TagView) (k : String) (hk : tagQualifies t = true → t.name ≠ k) :
    (syncTagStep now release s t).records k = s.records k ∧
    (k ∈ (syncTagStep now release s t).found ↔ k ∈ s.found) := by
  by_cases hq : tagQualifies t = true
  · have hne : (k == t.name) = false := by
      simp [hk hq]
      exact fun h => (hk hq) h.symm
    unfold syncTagStep
    simp only [hq, Bool.not_true, Bool.false_eq_true, if_false]
    cases hrec : s.records t.name
    · constructor
      · simp [hne]
      · simp
        intro h
        exact absurd h.symm (hk hq)
    · constructor
      · simp [hne]
      · simp
        intro h
        exact absurd h.symm (hk hq)
  · unfold syncTagStep
    simp [hq]

theorem syncTagStep_records_some (now : Nat) (release : ReleaseView) (s : SyncState)
    (t : TagView) (k : String) (r : AuditRecord) (h : s.records k = some r) :
    ∃ r', (syncTagStep now release s t).records k = some r' ∧
      r'.release = r.release := by
  by_cases hkt : k = t.name
  · subst hkt
    unfold syncTagStep
    by_cases hq : tagQualifies t = true
    · simp only [hq, Bool.not_true, Bool.false_eq_true, if_false, h]
      refine ⟨(syncExistingRecord now t.resolvedID t.resolvedLocation r).1, by simp, ?_⟩
      unfold syncExistingRecord
      split <;> simp
    · simp [hq, h]
  · unfold syncTagStep
    by_cases hq : tagQualifies t = true
    · have hne : (k == t.name) = false := by simp [hkt]
      simp only [hq, Bool.not_true, Bool.false_eq_true, if_false]
      cases hrec : s.records t.name <;> exact ⟨r, by simp [hne, h], rfl⟩
    · simp [hq]
      exact ⟨r, h, rfl⟩

theorem syncTagStep_found_mono (now : Nat) (release : ReleaseView) (s : SyncState)
    (t : TagView) (k : String) (h : k ∈ s.found) :
    k ∈ (syncTagStep now release s t).found := by
  unfold syncTagStep
  by_cases hq : tagQualifies t = true
  · simp only [hq, Bool.not_true, Bool.false_eq_true, if_false]
    cases hrec : s.records t.name <;> simp [h]
  · simp [hq, h]

theorem syncTagStep_found_self (now : Nat) (release : ReleaseView) (s : SyncState)
    (t : TagView) (hq : tagQualifies t = true) :
    t.name ∈ (syncTagStep now release s t).found := by
  unfold syncTagStep
  simp only [hq, Bool.not_true, Bool.false_eq_true, if_false]
  cases hrec : s.records t.name <;> simp

theorem foldl_syncTagStep_skip (now : Nat) (release : ReleaseView) :
    ∀ (tags : List TagView) (s : SyncState) (k : String),
    (∀ t ∈ tags, tagQualifies t = true → t.name ≠ k) →
    ((tags.foldl (syncTagStep now release) s).records k = s.records k ∧
     (k ∈ (tags.foldl (syncTagStep now release) s).found ↔ k ∈ s.found)) := by
  intro tags
  induction tags with
  | nil => intro s k _; exact ⟨rfl, Iff.rfl⟩
  | cons t ts ih =>
    intro s k h
    have hstep := syncTagStep_records_skip now release s t k (h t (by simp))
    have hrest := ih (syncTagStep now release s t) k
      (fun u hu => h u (by simp [hu]))
    exact ⟨hrest.1.trans hstep.1, hrest.2.trans hstep.2⟩

theorem foldl_syncTagStep_some (now : Nat) (release : ReleaseView) :
    ∀ (tags : List TagView) (s : SyncState) (k : String) (r : AuditRecord),
    s.records k = some r →
    ∃ r', (tags.foldl (syncTagStep now release) s).records k = some r' ∧
      r'.release = r.release := by
  intro tags
  induction tags with
  | nil => intro s k r h; exact ⟨r, h, rfl⟩
  | cons t ts ih =>
    intro s k r h
    obtain ⟨r1, h1, hrel1⟩ := syncTagStep_records_some now release s t k r h
    obtain ⟨r2, h2, hrel2⟩ := ih (syncTagStep now release s t) k r1 h1
    exact ⟨r2, h2, hrel2.trans hrel1⟩

theorem foldl_syncTagStep_found_mono (now : Nat) (release : ReleaseView) :
    ∀ (tags : List TagView) (s : SyncState) (k : String),
    k ∈ s.found → k ∈ (tags.foldl (syncTagStep now release) s).found := by
  intro tags
  induction tags with
  | nil => intro s k h; exact h
  | cons t ts ih =>
    intro s k h
    exact ih _ k (syncTagStep_found_mono now release s t k h)

theorem foldl_syncTagStep_found_of_tag (now : Nat) (release : ReleaseView) :
    ∀ (tags : List TagView) (s : SyncState) (t : TagView),
    t ∈ tags → tagQualifies t = true →
    t.name ∈ (tags.foldl (syncTagStep now release) s).found := by
  intro tags
  induction tags with
  | nil => intro s t h; cases h
  | cons u ts ih =>
    intro s t h hq
    rcases List.mem_cons.mp h with h | h
    · subst h
      exact foldl_syncTagStep_found_mono now release ts _ t.name
        (syncTagStep_found_self now release s t hq)
    · exact ih _ t h hq

theorem auditTrackerSync_stable_apply (now : Nat) (release : ReleaseView)
    (tags : List TagView) (records : String → Option AuditRecord) (k : String)
    (hstable : release.configAs = releaseConfigModeStable) :
    (auditTrackerSync now release tags records).1 k =
      match (tags.foldl (syncTagStep now release)
          { records := records, found := [], enqueued := [] }).records k with
      | some v =>
          if v.release == release.configName &&
              !((tags.foldl (syncTagStep now release)
                  { records := records, found := [], enqueued := [] }).found.contains k)
          then none else some v
      | none => none := by
  unfold auditTrackerSync
  simp [hstable]

theorem auditTrackerSync_stable_some (now : Nat) (release : ReleaseView)
    (tags : List TagView) (records : String → Option AuditRecord) (k : String)
    (r' : AuditRecord) (hstable : release.configAs = releaseConfigModeStable)
    (hF : (tags.foldl (syncTagStep now release)
        { records := records, found := [], enqueued := [] }).records k = some r') :
    (auditTrackerSync now release tags records).1 k =
      if r'.release == release.configName &&
          !((tags.foldl (syncTagStep now release)
              { records := records, found := [], enqueued := [] }).found.contains k)
      then none else some r' := by
  rw [auditTrackerSync_stable_apply now release tags records k hstable, hF]

/-- Claim C3: once a record's failure is set, reconciliation of that tag
is a no-op (nil result, no effects); `Sync`'s existing-record step clears
the failure and refreshes `At` exactly when more than 12 hours have
elapsed since `At`; within the cooldown the record is unchanged and the
changed flag holds iff location or id drifted; and pure drift within the
cooldown enqueues the tag while leaving the stored record (and its
failure) untouched. -/
theorem auditTracker_sticky_failure_lifecycle :
    (∀ (c : Env) (tag : String) (record : AuditRecord) (f : AuditFailure),
       c.record? = some record → record.failure = some f →
       syncAuditTag c tag = (Except.ok (), [])) ∧
    (∀ (now : Nat) (id location : String) (e : AuditRecord),
       now - e.observedAt > twelveHoursNanos →
       syncExistingRecord now id location e =
         ({ e with observedAt := now, failure := none }, true)) ∧
    (∀ (now : Nat) (id location : String) (e : AuditRecord),
       ¬ now - e.observedAt > twelveHoursNanos →
       (syncExistingRecord now id location e).1 = e ∧
       ((syncExistingRecord now id location e).2 = true ↔
         (e.location ≠ location ∨ e.id ≠ id))) ∧
    (∀ (now : Nat) (release : ReleaseView) (s : SyncState) (t : TagView)
       (e : AuditRecord),
       tagQualifies t = true → s.records t.name = some e →
       ¬ now - e.observedAt > twelveHoursNanos →
       (e.location ≠ t.resolvedLocation ∨ e.id ≠ t.resolvedID) →
       (syncTagStep now release s t).records t.name = some e ∧
       (syncTagStep now release s t).enqueued = s.enqueued ++ [t.name]) := by
  refine ⟨?_, fun now id location e h => syncExistingRecord_cooldown now id location e h,
    fun now id location e h => syncExistingRecord_within now id location e h, ?_⟩
  · intro c tag record f hrec hf
    unfold syncAuditTag
    simp [hrec, hf]
  · intro now release s t e hq hrec hcool hdrift
    have h1 := (syncExistingRecord_within now t.resolvedID t.resolvedLocation e hcool).1
    have h2 := (syncExistingRecord_within now t.resolvedID t.resolvedLocation e hcool).2
    unfold syncTagStep
    simp only [hq, Bool.not_true, Bool.false_eq_true, if_false, hrec]
    constructor
    · simp [h1]
    · have : (syncExistingRecord now t.resolvedID t.resolvedLocation e).2 = true :=
        h2.mpr hdrift
      simp [this]

/-- Witness for C3 at concrete records, times and tags. -/
theorem auditTracker_sticky_failure_lifecycle_witness :
    syncAuditTag envFailed "4.10.0-tag" = (Except.ok (), []) ∧
    syncExistingRecord (twelveHoursNanos + 1) "sha256:abcd"
        "registry.example/repo@sha256:abcd" sampleRecord =
      ({ sampleRecord with observedAt := twelveHoursNanos + 1, failure := none }, true) ∧
    (syncExistingRecord 5 "sha256:abcd" "registry.example/repo@sha256:abcd"
        sampleRecord).1 = sampleRecord ∧
    (syncTagStep 5 sampleRelease syncState0 driftTag).records "4.10.0-tag" =
        some sampleRecord ∧
    (syncTagStep 5 sampleRelease syncState0 driftTag).enqueued = ["4.10.0-tag"] :=
  ⟨auditTracker_sticky_failure_lifecycle.1 envFailed "4.10.0-tag" failedRecord
      { reason := "VerificationFailed", message := "boom" } rfl rfl,
   auditTracker_sticky_failure_lifecycle.2.1 (twelveHoursNanos + 1) "sha256:abcd"
      "registry.example/repo@sha256:abcd" sampleRecord (by decide),
   (auditTracker_sticky_failure_lifecycle.2.2.1 5 "sha256:abcd" "registry.example/repo@sha256:abcd"
      sampleRecord (by decide)).1,
   (auditTracker_sticky_failure_lifecycle.2.2.2 5 sampleRelease syncState0 driftTag sampleRecord (by decide) rfl
      (by decide) (by decide)).1,
   (auditTracker_sticky_failure_lifecycle.2.2.2 5 sampleRelease syncState0 driftTag sampleRecord (by decide) rfl
      (by decide) (by decide)).2⟩

/-- Claim C6 counterexample: records are keyed by tag name alone, so a
`Sync` of release R2 whose qualifying tag collides with a record owned
by R1 mutates that record (12-hour refresh clears its failure and
updates `observedAt`) — "every record owned by a different release is
left unchanged" is false. -/
theorem auditTrackerSync_cross_release_update_cex :
    failedR1Record.release = "R1" ∧ otherRelease.configName = "R2" ∧
    failedR1Record.failure ≠ none ∧
    (auditTrackerSync (twelveHoursNanos + 1) otherRelease [collidingTag]
        (fun k => if k == "4.10.0-tag" then some failedR1Record else none)).1
        "4.10.0-tag" =
      some { failedR1Record with
             observedAt := twelveHoursNanos + 1, failure := none } := by
  refine ⟨rfl, rfl, by decide, by decide⟩

/-- Claim C6 (amended): in stable mode, a record is deleted by `Sync`
only when its stored owning release equals the syncing release's name
and no qualifying tag of that release carries its tag name; a record
owned by a different release is never deleted, and is returned unchanged
whenever its tag name is not among the release's qualifying tags
(a cross-release tag-name collision can still refresh it, see the
counterexample). -/
theorem auditTrackerSync_gc_scoping :
    ∀ (now : Nat) (release : ReleaseView) (tags : List TagView)
      (records : String → Option AuditRecord) (k : String) (r : AuditRecord),
      release.configAs = releaseConfigModeStable →
      records k = some r →
      (((auditTrackerSync now release tags records).1 k = none →
         r.release = release.configName ∧
         ∀ t ∈ tags, tagQualifies t = true → t.name ≠ k) ∧
       (r.release ≠ release.configName →
         ∃ r', (auditTrackerSync now release tags records).1 k = some r' ∧
           r'.release = r.release ∧
           ((∀ t ∈ tags, tagQualifies t = true → t.name ≠ k) → r' = r))) := by
  intro now release tags records k r hstable hrec
  obtain ⟨r', hr', hrel⟩ := foldl_syncTagStep_some now release tags
    { records := records, found := [], enqueued := [] } k r hrec
  have happ := auditTrackerSync_stable_some now release tags records k r' hstable hr'
  constructor
  · intro hnone
    rw [happ] at hnone
    by_cases hcond : (r'.release == release.configName &&
        !((tags.foldl (syncTagStep now release)
            { records := records, found := [], enqueued := [] }).found.contains k)) = true
    · have h1 : r'.release = release.configName := by
        have := (Bool.and_eq_true _ _).mp hcond
        simpa using this.1
      have h2 : ((tags.foldl (syncTagStep now release)
          { records := records, found := [], enqueued := [] }).found.contains k) = false := by
        have := (Bool.and_eq_true _ _).mp hcond
        simpa using this.2
      refine ⟨hrel ▸ h1, ?_⟩
      intro t ht hq heq
      have hmem := foldl_syncTagStep_found_of_tag now release tags
        { records := records, found := [], enqueued := [] } t ht hq
      rw [heq] at hmem
      rw [← contains_iff_mem_string _ k] at hmem
      rw [h2] at hmem
      cases hmem
    · rw [if_neg hcond] at hnone
      cases hnone
  · intro hdiff
    refine ⟨r', ?_, hrel, ?_⟩
    · rw [happ]
      have hcond : (r'.release == release.configName) = false := by
        rw [hrel]
        simpa using hdiff
      simp [hcond]
    · intro hno
      have hskip := (foldl_syncTagStep_skip now release tags
        { records := records, found := [], enqueued := [] } k hno).1
      rw [hskip] at hr'
      exact Option.some.inj ((hrec.symm.trans hr').symm)

/-- Witness for C6: `Sync(R1)` with an emptied tag list deletes R1's
stale record and leaves R2's record untouched. -/
theorem auditTrackerSync_gc_scoping_witness :
    (auditTrackerSync 0 sampleRelease [] gcRecords).1 "other-tag" = some r2Record ∧
    (auditTrackerSync 0 sampleRelease [] gcRecords).1 "4.10.0-tag" = none := by
  constructor
  · obtain ⟨r', hres, -, hunch⟩ :=
      (auditTrackerSync_gc_scoping 0 sampleRelease [] gcRecords "other-tag" r2Record rfl rfl).2 (by decide)
    rw [hres, hunch (by simp)]
  · decide

/-- Claim C8 counterexample: a digest with no colon separator yields a
job name equal to the raw digest, without the `"verify-"` purpose
prefix. -/
theorem auditVerifyJobName_missing_separator_cex :
    auditVerifyJobName "abcd" = "abcd" ∧
    (auditVerifyJobName "abcd").data.take 7 ≠ "verify-".data := by
  constructor
  · decide
  · decide

/-- Claim C8 (amended): the job name is a pure function of the digest
alone; it is at most 63 characters, contains no colon, carries the
`"verify-"` prefix exactly when the digest contains the separator, and
otherwise is the sanitized raw digest. -/
theorem auditVerifyJobName_sanitized (id : String) :
    (auditVerifyJobName id).length ≤ 63 ∧
    (∀ ch ∈ (auditVerifyJobName id).data, ch ≠ ':') ∧
    (∀ p, splitFirstColon id = some p →
       (auditVerifyJobName id).data.take 7 = "verify-".data) ∧
    (splitFirstColon id = none →
       auditVerifyJobName id = truncateName (colonToDash id)) := by
  refine ⟨truncateName_length _, ?_, ?_, ?_⟩
  · intro ch hch
    exact colonToDash_no_colon _ ch (truncateName_mem _ ch hch)
  · intro p hp
    unfold auditVerifyJobName
    rw [hp]
    rw [truncateName_data_take7]
    show (colonToDash ("verify-" ++ p.2)).data.take 7 = "verify-".data
    unfold colonToDash
    show (("verify-" ++ p.2).data.map _).take 7 = "verify-".data
    rw [String.data_append, List.map_append]
    rw [List.take_append_of_le_length (by simp)]
    decide
  · intro hp
    unfold auditVerifyJobName
    rw [hp]

/-- Witness for C8 at the digest `"sha256:abcd"`. -/
theorem auditVerifyJobName_sanitized_witness :
    (auditVerifyJobName "sha256:abcd").length ≤ 63 ∧
    (auditVerifyJobName "sha256:abcd").data.take 7 = "verify-".data :=
  ⟨(auditVerifyJobName_sanitized "sha256:abcd").1,
   (auditVerifyJobName_sanitized "sha256:abcd").2.2.1 ("sha256", "abcd") (by decide)⟩


end ReleaseAudit
